import Mathlib

/-!
Verification of the rulego-components-ci git/metrics action nodes.

The definitions below are a shallow embedding of `src/ci/action` (package
`action`): the shared `baseGitNode` configuration accessors, the five git
operation nodes (clone, commit, create-tag, push, log) and the host metrics
node (`PsNode`).  External collaborators (the go-git transport layer, the
gopsutil collectors, the rulego message container, Go's `path`/`strings`
standard library and the rulego template utilities) are modelled as explicit
oracles or as pure Lean functions mirroring their documented contracts.
-/

namespace CI

/-! ### Go standard library and rulego string helpers (external collaborators) -/

/-- Models Go `strings.Split` on a one-character separator: the list of
segments of `l` separated by `sep`, keeping empty segments; never empty. -/
def goSplitChar (sep : Char) : List Char → List (List Char)
  | [] => [[]]
  | c :: rest =>
    if c = sep then [] :: goSplitChar sep rest
    else
      match goSplitChar sep rest with
      | [] => [[c]]
      | h :: t => (c :: h) :: t

/-- Models Go `strings.TrimSuffix`: removes one trailing occurrence of
`suffixStr` from `s` when present. -/
def trimSuffix (s suffixStr : String) : String :=
  if suffixStr.data.isSuffixOf s.data then
    String.mk (s.data.take (s.data.length - suffixStr.data.length))
  else s

/-- Models Go `strings.TrimSpace`: strips whitespace from both ends. -/
def trimSpace (s : String) : String :=
  String.mk (((s.data.dropWhile Char.isWhitespace).reverse.dropWhile
    Char.isWhitespace).reverse)

/-- Models Go `path.Clean`: lexical simplification of a slash-separated path
(drops empty and dot segments, resolves dot-dot segments against the stack). -/
def pathClean (p : String) : String :=
  if p = "" then "."
  else
    let rooted := p.data.head? = some '/'
    let stack := (goSplitChar '/' p.data).foldl
      (fun acc seg =>
        if seg = [] ∨ seg = ['.'] then acc
        else if seg = ['.', '.'] then
          match acc with
          | [] => if rooted then [] else [['.', '.']]
          | top :: rest => if top = ['.', '.'] then seg :: top :: rest else rest
        else seg :: acc) []
    let body := List.intercalate ['/'] stack.reverse
    if rooted then
      if body = [] then "/" else String.mk ('/' :: body)
    else
      if body = [] then "." else String.mk body

/-- Models Go `path.Join`: empty elements are dropped, the rest are joined
with a slash and cleaned; all-empty input yields the empty string. -/
def pathJoin (elems : List String) : String :=
  let nonEmpty := elems.filter (fun e => e ≠ "")
  if nonEmpty = [] then ""
  else pathClean (String.mk (List.intercalate ['/'] (nonEmpty.map String.data)))

/-- Two-argument form of `pathJoin`, as used by `baseGitNode.getWorkDir`. -/
def pathJoin2 (a b : String) : String := pathJoin [a, b]

/-- Models rulego `str.CheckHasVar` on the character list: detects a
substitution marker opening. -/
def findVar : List Char → Bool
  | [] => false
  | c :: rest => (c = '$' && rest.head? = some '\x7b') || findVar rest

/-- Models rulego `str.CheckHasVar`: true when `s` contains a template
substitution marker. -/
def CheckHasVar (s : String) : Bool := findVar s.data

/-- Fuel-indexed renderer for template markers: each well-formed marker is
replaced by the bound value from `env`; a marker with no closing brace is
left verbatim. -/
def renderFuel (env : String → String) : Nat → List Char → List Char
  | 0, l => l
  | _ + 1, [] => []
  | fuel + 1, c :: rest =>
    if c = '$' && rest.head? = some '\x7b' then
      let body := rest.tail
      let name := body.takeWhile (fun ch => ch ≠ '\x7d')
      match body.dropWhile (fun ch => ch ≠ '\x7d') with
      | _ :: tail => (env (String.mk name)).data ++ renderFuel env fuel tail
      | [] => c :: rest
    else c :: renderFuel env fuel rest

/-- Models rulego `str.ExecuteTemplate`: substitutes every marker in `tpl`
with its value from `env`. -/
def ExecuteTemplate (tpl : String) (env : String → String) : String :=
  String.mk (renderFuel env tpl.data.length tpl.data)

/-- Models rulego `str.Template.Execute`: renders against the environment
when one was built for the invocation, returns the raw text otherwise. -/
def templateExecute (tpl : String) (evn : Option (String → String)) : String :=
  match evn with
  | some e => ExecuteTemplate tpl e
  | none => tpl

/-- Returns the remainder of `l` after the literal key `key`, when `key`
starts `l`. -/
def afterKey : List Char → List Char → Option (List Char)
  | [], l => some l
  | _ :: _, [] => none
  | k :: ks, c :: cs => if k = c then afterKey ks cs else none

/-! ### The rulego message container (external collaborator) -/

/-- Call-scoped metadata: a total string map, absent keys read as the empty
string (rulego `Metadata.GetValue` contract). -/
def Metadata := String → String

/-- Models rulego `Metadata.PutValue`. -/
def putValue (m : Metadata) (k v : String) : Metadata :=
  fun k' => if k' = k then v else m k'

/-- Models the rulego `RuleMsg` as consumed by these nodes: metadata, the
payload and its declared type. -/
structure RuleMsg where
  metadata : Metadata
  data : String
  dataType : String

/-- Modelled from the spec: the execution environment is an ephemeral mapping
built once per invocation from the caller-supplied metadata and message body
(rulego `base.NodeUtils.GetEvnAndMetadata` together with the dotted-name
lookup of `str.ExecuteTemplate` live outside this repository).  Variables
named metadata.k resolve to metadata key k; the variable data resolves to
the message body; anything else resolves to the empty string. -/
def GetEvnAndMetadata (msg : RuleMsg) : String → String :=
  fun name =>
    match afterKey "metadata.".data name.data with
    | some rest => msg.metadata (String.mk rest)
    | none => if name = "data" then msg.data else ""

/-- Shared pattern of every node's `OnMsg` preamble: the environment is built
only when the node's initialization-time variable flag is set. -/
def nodeEvn (hasVar : Bool) (msg : RuleMsg) : Option (String → String) :=
  if hasVar then some (GetEvnAndMetadata msg) else none

/-! ### Well-known metadata keys -/

/-- Metadata key of the resolved working directory (`KeyWorkDir`). -/
def KeyWorkDir : String := "workDir"

/-- Metadata key of the default reference name (`KeyRef`). -/
def KeyRef : String := "ref"

/-- Metadata key of the default SSH remote URL (`KeyGitSshUrl`). -/
def KeyGitSshUrl : String := "gitSshUrl"

/-- Metadata key of the default HTTP remote URL (`KeyGitHttpUrl`). -/
def KeyGitHttpUrl : String := "gitHttpUrl"

/-- Modelled from the spec: the `KeyHash` constant is used by the commit and
create-tag nodes but its declaration is not among the provided sources; the
spec interface table names the key hash. -/
def KeyHash : String := "hash"

/-! ### Errors, outcomes and credential objects -/

/-- Errors flowing through the nodes: the distinguished go-git
`NoErrAlreadyUpToDate` sentinel, or an ordinary error carrying a message
(`errors.New` and every external failure). -/
inductive GitErr where
  | alreadyUpToDate
  | msg (s : String)
deriving DecidableEq

/-- Terminal outcome of an operation: `TellSuccess` or `TellFailure` with the
attached error. -/
inductive Outcome where
  | success
  | failure (e : GitErr)
deriving DecidableEq

/-- Success value of `ssh.NewPublicKeysFromFile` (external loader), recorded
with the inputs it was loaded from. -/
structure SshKeyCred where
  user : String
  pemFile : String
deriving DecidableEq

/-- Concrete transport credential produced by `baseGitNode.getAuthMethod`:
an ssh key identity or an HTTP basic-auth username/password pair. -/
inductive AuthMethod where
  | publicKeys (k : SshKeyCred)
  | basicAuth (username password : String)
deriving DecidableEq

/-- Models `transport.ProxyOptions`. -/
structure ProxyOptions where
  URL : String
  Username : String
  Password : String
deriving DecidableEq

/-! ### The shared base git node -/

/-- Configuration shared by every git node (`baseGitNodeConfiguration`). -/
structure BaseGitNodeConfiguration where
  Repository : String
  Directory : String
  Reference : String
  AuthType : String
  AuthUser : String
  AuthPassword : String
  AuthPemFile : String
  ProxyUrl : String
  ProxyUsername : String
  ProxyPassword : String
  RefSpecs : String
deriving DecidableEq

/-- Models `baseGitNode.getAuthMethod`: dispatch on the authentication type
tag; `loadKeys` is the external `ssh.NewPublicKeysFromFile` collaborator. -/
def getAuthMethod (loadKeys : String → String → String → Except GitErr SshKeyCred)
    (cfg : BaseGitNodeConfiguration) : Except GitErr AuthMethod :=
  if cfg.AuthType = "ssh-key" ∨ cfg.AuthType = "ssh" then
    match loadKeys cfg.AuthUser cfg.AuthPemFile cfg.AuthPassword with
    | .error e => .error e
    | .ok sshKey => .ok (.publicKeys sshKey)
  else if cfg.AuthType = "username-password" ∨ cfg.AuthType = "password" then
    .ok (.basicAuth cfg.AuthUser cfg.AuthPassword)
  else if cfg.AuthType = "token" then
    .ok (.basicAuth cfg.AuthUser cfg.AuthPassword)
  else
    .error (.msg ("not authType=" ++ cfg.AuthType))

/-- Models `baseGitNode.getRepoName`: split the URL on slashes, take the last
segment, strip a trailing .git suffix. -/
def getRepoName (repoURL : String) : String :=
  let parts := goSplitChar '/' repoURL.data
  let repoName := parts.getLastD []
  trimSuffix (String.mk repoName) ".git"

/-- Models `baseGitNode.getRepository`: empty literal falls back to the SSH
or HTTP metadata URL depending on the auth type; a non-empty literal is
template-rendered when an environment was built. -/
def getRepository (cfg : BaseGitNodeConfiguration) (msg : RuleMsg)
    (evn : Option (String → String)) : String :=
  let repository := cfg.Repository
  if repository = "" then
    if cfg.AuthType = "ssh-key" ∨ cfg.AuthType = "ssh" then
      msg.metadata KeyGitSshUrl
    else
      msg.metadata KeyGitHttpUrl
  else
    match evn with
    | some e => ExecuteTemplate repository e
    | none => repository

/-- Models `baseGitNode.getWorkDir`: precedence-resolve the base directory,
then join it with the repository short name. -/
def getWorkDir (cfg : BaseGitNodeConfiguration) (msg : RuleMsg)
    (evn : Option (String → String)) : String :=
  let workDir := cfg.Directory
  let workDir :=
    if workDir = "" then msg.metadata KeyWorkDir
    else
      match evn with
      | some e => ExecuteTemplate workDir e
      | none => workDir
  pathJoin2 workDir (getRepoName (getRepository cfg msg evn))

/-- Models `baseGitNode.getReferenceName`. -/
def getReferenceName (cfg : BaseGitNodeConfiguration) (msg : RuleMsg)
    (evn : Option (String → String)) : String :=
  let ref := cfg.Reference
  if ref = "" then msg.metadata KeyRef
  else
    match evn with
    | some e => ExecuteTemplate ref e
    | none => ref

/-- Models `baseGitNode.getRefSpecs`: render when an environment exists, then
split on commas into refspec strings. -/
def getRefSpecs (cfg : BaseGitNodeConfiguration) (_msg : RuleMsg)
    (evn : Option (String → String)) : List String :=
  let ref := cfg.RefSpecs
  let ref :=
    match evn with
    | some e => ExecuteTemplate ref e
    | none => ref
  (goSplitChar ',' ref.data).map String.mk

/-- Models `baseGitNode.getProxy`. -/
def getProxy (cfg : BaseGitNodeConfiguration) : ProxyOptions :=
  if cfg.ProxyUrl ≠ "" then
    { URL := cfg.ProxyUrl, Username := cfg.ProxyUsername,
      Password := cfg.ProxyPassword }
  else
    { URL := "", Username := "", Password := "" }

/-! ### Clone node (`GitCloneNode`) -/

/-- Models `git.CloneOptions` as populated by the clone node. -/
structure CloneOptions where
  URL : String
  ReferenceName : String
  Auth : Option AuthMethod
  Proxy : ProxyOptions
deriving DecidableEq

/-- Models `git.PullOptions` as populated by the clone node (`Force` is
always set). -/
structure PullOptions where
  RemoteURL : String
  Force : Bool
  ReferenceName : String
  Auth : Option AuthMethod
  Proxy : ProxyOptions
deriving DecidableEq

/-- External collaborators of the clone node: filesystem stat, go-git plain
clone/open, worktree acquisition and pull, and the ssh key loader. -/
structure CloneEffects where
  loadKeys : String → String → String → Except GitErr SshKeyCred
  statMissing : String → Bool
  plainClone : String → CloneOptions → Option GitErr
  plainOpen : String → Option GitErr
  worktree : String → Option GitErr
  pull : String → PullOptions → Option GitErr

/-- The clone node: shared configuration plus the initialization-time
variable flag. -/
structure GitCloneNode where
  base : BaseGitNodeConfiguration
  hasVar : Bool

/-- Models `GitCloneNode.Init`: the flag scans the repository, directory and
reference fields for markers. -/
def GitCloneNode.initNode (cfg : BaseGitNodeConfiguration) : GitCloneNode :=
  { base := cfg,
    hasVar := CheckHasVar cfg.Repository || CheckHasVar cfg.Directory ||
      CheckHasVar cfg.Reference }

/-- Clone options as assembled step by step in the directory-absent branch. -/
def buildCloneOptions (cfg : BaseGitNodeConfiguration) (repository ref : String)
    (auth : AuthMethod) : CloneOptions :=
  let opts : CloneOptions :=
    { URL := repository, ReferenceName := "", Auth := none,
      Proxy := { URL := "", Username := "", Password := "" } }
  let opts := if (getProxy cfg).URL ≠ "" then { opts with Proxy := getProxy cfg } else opts
  let opts := if ref ≠ "" then { opts with ReferenceName := ref } else opts
  { opts with Auth := some auth }

/-- Pull options as assembled step by step in the directory-present branch. -/
def buildPullOptions (cfg : BaseGitNodeConfiguration) (repository ref : String)
    (auth : AuthMethod) : PullOptions :=
  let opts : PullOptions :=
    { RemoteURL := repository, Force := true, ReferenceName := "", Auth := none,
      Proxy := { URL := "", Username := "", Password := "" } }
  let opts := if (getProxy cfg).URL ≠ "" then { opts with Proxy := getProxy cfg } else opts
  let opts := if ref ≠ "" then { opts with ReferenceName := ref } else opts
  { opts with Auth := some auth }

/-- Models `GitCloneNode.OnMsg`: write the resolved work directory into
metadata, then clone (directory absent) or force-pull (directory present);
the pull outcome `NoErrAlreadyUpToDate` is remapped to success. -/
def GitCloneNode.OnMsg (fx : CloneEffects) (x : GitCloneNode) (msg : RuleMsg) :
    RuleMsg × Outcome :=
  let evn := nodeEvn x.hasVar msg
  let ref := getReferenceName x.base msg evn
  let workDir := getWorkDir x.base msg evn
  let msg1 := { msg with metadata := putValue msg.metadata KeyWorkDir workDir }
  let repository := getRepository x.base msg1 evn
  if fx.statMissing workDir then
    match getAuthMethod fx.loadKeys x.base with
    | .error e => (msg1, .failure e)
    | .ok auth =>
      match fx.plainClone workDir (buildCloneOptions x.base repository ref auth) with
      | some e => (msg1, .failure e)
      | none => (msg1, .success)
  else
    match fx.plainOpen workDir with
    | some e => (msg1, .failure e)
    | none =>
      match fx.worktree workDir with
      | some e => (msg1, .failure e)
      | none =>
        match getAuthMethod fx.loadKeys x.base with
        | .error e => (msg1, .failure e)
        | .ok auth =>
          match fx.pull workDir (buildPullOptions x.base repository ref auth) with
          | some .alreadyUpToDate => (msg1, .success)
          | some e => (msg1, .failure e)
          | none => (msg1, .success)

/-! ### Commit node (`GitCommitNode`) -/

/-- Signature configuration block shared by the commit and tag nodes. -/
structure Signature where
  AuthorName : String
  AuthorEmail : String
deriving DecidableEq

/-- Models `object.Signature` handed to go-git (name, email, current time). -/
structure ObjectSignature where
  Name : String
  Email : String
  When : Int
deriving DecidableEq

/-- External collaborators of the commit node. -/
structure CommitEffects where
  plainOpen : String → Option GitErr
  worktree : String → Option GitErr
  statusClean : String → Except GitErr Bool
  addGlob : String → String → Option GitErr
  commitOp : String → String → ObjectSignature → Except GitErr String
  now : Int

/-- The commit node: shared configuration, its own fields and the variable
flag. -/
structure GitCommitNode where
  base : BaseGitNodeConfiguration
  Pattern : String
  Message : String
  Signature : CI.Signature
  hasVar : Bool

/-- Models `GitCommitNode.Init`: the flag scans directory, pattern and the
two signature fields (not the message or the repository). -/
def GitCommitNode.initNode (cfg : BaseGitNodeConfiguration)
    (pat message : String) (sig : CI.Signature) : GitCommitNode :=
  { base := cfg, Pattern := pat, Message := message, Signature := sig,
    hasVar := CheckHasVar cfg.Directory || CheckHasVar pat ||
      CheckHasVar sig.AuthorName || CheckHasVar sig.AuthorEmail }

/-- Models `GitCommitNode.getPattern`. -/
def GitCommitNode.getPattern (x : GitCommitNode)
    (evn : Option (String → String)) : String :=
  match evn with
  | some e => ExecuteTemplate x.Pattern e
  | none => x.Pattern

/-- Models `GitCommitNode.getMessage`. -/
def GitCommitNode.getMessage (x : GitCommitNode)
    (evn : Option (String → String)) : String :=
  match evn with
  | some e => ExecuteTemplate x.Message e
  | none => x.Message

/-- Models `GitCommitNode.getSignatureName`. -/
def GitCommitNode.getSignatureName (x : GitCommitNode)
    (evn : Option (String → String)) : String :=
  match evn with
  | some e => ExecuteTemplate x.Signature.AuthorName e
  | none => x.Signature.AuthorName

/-- Models `GitCommitNode.getSignatureEmail`. -/
def GitCommitNode.getSignatureEmail (x : GitCommitNode)
    (evn : Option (String → String)) : String :=
  match evn with
  | some e => ExecuteTemplate x.Signature.AuthorEmail e
  | none => x.Signature.AuthorEmail

/-- Models `GitCommitNode.OnMsg`: open, worktree, status; a clean tree fails
with the no-changes business error; otherwise add matching files, commit and
record the commit hash under `KeyHash`. -/
def GitCommitNode.OnMsg (fx : CommitEffects) (x : GitCommitNode)
    (msg : RuleMsg) : RuleMsg × Outcome :=
  let evn := nodeEvn x.hasVar msg
  let workDir := getWorkDir x.base msg evn
  let msg1 := { msg with metadata := putValue msg.metadata KeyWorkDir workDir }
  match fx.plainOpen workDir with
  | some e => (msg1, .failure e)
  | none =>
    match fx.worktree workDir with
    | some e => (msg1, .failure e)
    | none =>
      match fx.statusClean workDir with
      | .error e => (msg1, .failure e)
      | .ok isClean =>
        if isClean then (msg1, .failure (.msg "no changes to commit"))
        else
          match fx.addGlob workDir (x.getPattern evn) with
          | some e => (msg1, .failure e)
          | none =>
            match fx.commitOp workDir (x.getMessage evn)
                { Name := x.getSignatureName evn,
                  Email := x.getSignatureEmail evn, When := fx.now } with
            | .error e => (msg1, .failure e)
            | .ok hash =>
              ({ msg1 with metadata := putValue msg1.metadata KeyHash hash },
                .success)

/-! ### Create-tag node (`GitCreateTagNode`) -/

/-- External collaborators of the create-tag node.  `headRef` models
`Repository.Head` returning the hash of the resolved HEAD reference. -/
structure TagEffects where
  plainOpen : String → Option GitErr
  headRef : String → Except GitErr String
  commitObject : String → String → Except GitErr String
  createTag : String → String → String → ObjectSignature → String →
    Except GitErr String
  now : Int

/-- The create-tag node. -/
structure GitCreateTagNode where
  base : BaseGitNodeConfiguration
  Tag : String
  Message : String
  Signature : CI.Signature
  hasVar : Bool

/-- Models `GitCreateTagNode.Init`: the flag scans directory, tag and the two
signature fields (not the message). -/
def GitCreateTagNode.initNode (cfg : BaseGitNodeConfiguration)
    (tag message : String) (sig : CI.Signature) : GitCreateTagNode :=
  { base := cfg, Tag := tag, Message := message, Signature := sig,
    hasVar := CheckHasVar cfg.Directory || CheckHasVar tag ||
      CheckHasVar sig.AuthorName || CheckHasVar sig.AuthorEmail }

/-- Models `GitCreateTagNode.getTag`. -/
def GitCreateTagNode.getTag (x : GitCreateTagNode)
    (evn : Option (String → String)) : String :=
  match evn with
  | some e => ExecuteTemplate x.Tag e
  | none => x.Tag

/-- Models `GitCreateTagNode.getMessage`. -/
def GitCreateTagNode.getMessage (x : GitCreateTagNode)
    (evn : Option (String → String)) : String :=
  match evn with
  | some e => ExecuteTemplate x.Message e
  | none => x.Message

/-- Models `GitCreateTagNode.getSignatureName`. -/
def GitCreateTagNode.getSignatureName (x : GitCreateTagNode)
    (evn : Option (String → String)) : String :=
  match evn with
  | some e => ExecuteTemplate x.Signature.AuthorName e
  | none => x.Signature.AuthorName

/-- Models `GitCreateTagNode.getSignatureEmail`. -/
def GitCreateTagNode.getSignatureEmail (x : GitCreateTagNode)
    (evn : Option (String → String)) : String :=
  match evn with
  | some e => ExecuteTemplate x.Signature.AuthorEmail e
  | none => x.Signature.AuthorEmail

/-- Models `GitCreateTagNode.OnMsg`.  The error from `Repository.Head` is
observed but its handler block is empty; the code then calls `Hash()` on the
nil reference, a nil-pointer dereference: that runtime panic is modelled as
the outcome `none` (no success or failure is ever signalled). -/
def GitCreateTagNode.OnMsg (fx : TagEffects) (x : GitCreateTagNode)
    (msg : RuleMsg) : RuleMsg × Option Outcome :=
  let evn := nodeEvn x.hasVar msg
  let workDir := getWorkDir x.base msg evn
  let msg1 := { msg with metadata := putValue msg.metadata KeyWorkDir workDir }
  match fx.plainOpen workDir with
  | some e => (msg1, some (.failure e))
  | none =>
    match fx.headRef workDir with
    | .error _ => (msg1, none)
    | .ok headHash =>
      match fx.commitObject workDir headHash with
      | .error e => (msg1, some (.failure e))
      | .ok commitHash =>
        match fx.createTag workDir (x.getTag evn) commitHash
            { Name := x.getSignatureName evn, Email := x.getSignatureEmail evn,
              When := fx.now } (x.getMessage evn) with
        | .error e => (msg1, some (.failure e))
        | .ok tagRefHash =>
          ({ msg1 with metadata := putValue msg1.metadata KeyHash tagRefHash },
            some .success)

/-! ### Push node (`GitPushNode`) -/

/-- Models `git.PushOptions` as populated by the push node. -/
structure PushOptions where
  RemoteURL : String
  RefSpecs : List String
  Auth : Option AuthMethod
deriving DecidableEq

/-- External collaborators of the push node. -/
structure PushEffects where
  loadKeys : String → String → String → Except GitErr SshKeyCred
  plainOpen : String → Option GitErr
  pushOp : String → PushOptions → Option GitErr

/-- The push node. -/
structure GitPushNode where
  base : BaseGitNodeConfiguration
  hasVar : Bool

/-- Models `GitPushNode.Init`: the flag scans repository, directory and
refspecs. -/
def GitPushNode.initNode (cfg : BaseGitNodeConfiguration) : GitPushNode :=
  { base := cfg,
    hasVar := CheckHasVar cfg.Repository || CheckHasVar cfg.Directory ||
      CheckHasVar cfg.RefSpecs }

/-- Models `GitPushNode.OnMsg`. -/
def GitPushNode.OnMsg (fx : PushEffects) (x : GitPushNode) (msg : RuleMsg) :
    RuleMsg × Outcome :=
  let evn := nodeEvn x.hasVar msg
  let refSpecs := getRefSpecs x.base msg evn
  let workDir := getWorkDir x.base msg evn
  let msg1 := { msg with metadata := putValue msg.metadata KeyWorkDir workDir }
  let repository := getRepository x.base msg1 evn
  match fx.plainOpen workDir with
  | some e => (msg1, .failure e)
  | none =>
    match getAuthMethod fx.loadKeys x.base with
    | .error e => (msg1, .failure e)
    | .ok auth =>
      match fx.pushOp workDir
          { RemoteURL := repository, RefSpecs := refSpecs, Auth := some auth } with
      | some e => (msg1, .failure e)
      | none => (msg1, .success)

/-! ### Log node (`GitLogNode`) -/

/-- Models a go-git commit signature: person name, email, timestamp (seconds
since the Go zero time, year 1). -/
structure Sig where
  name : String
  email : String
  when : Int
deriving DecidableEq

/-- Models `object.Commit` as read by the log node (hashes already rendered
to strings). -/
structure GitCommit where
  hash : String
  author : Sig
  committer : Sig
  mergeTag : String
  message : String
  treeHash : String
  encoding : String
deriving DecidableEq

/-- Models the `LogMsg` record serialized by the log node. -/
structure LogMsg where
  hash : String
  author : Sig
  committer : Sig
  mergeTag : String
  message : String
  treeHash : String
  encoding : String
deriving DecidableEq

/-- The `LogMsg` built from one commit inside the log loop. -/
def mkLogMsg (c : GitCommit) : LogMsg :=
  { hash := c.hash, author := c.author, committer := c.committer,
    mergeTag := c.mergeTag, message := c.message, treeHash := c.treeHash,
    encoding := c.encoding }

/-- The skip condition of the log loop: a bound is applied only when it is
set (nonzero), and a commit outside either applied bound is skipped. -/
def outOfRange (startTime endTime : Int) (c : GitCommit) : Bool :=
  decide ((startTime ≠ 0 ∧ c.committer.when < startTime) ∨
    (endTime ≠ 0 ∧ c.committer.when > endTime))

/-- Models the collection loop of `GitLogNode.OnMsg`: walk the iterator,
skip commits out of range, collect a `LogMsg` per match and stop as soon as
the counter reaches a nonzero limit. -/
def logLoop (startTime endTime limit : Int) : List GitCommit → Int → List LogMsg
  | [], _ => []
  | c :: rest, i =>
    if outOfRange startTime endTime c then
      logLoop startTime endTime limit rest i
    else
      if limit ≠ 0 ∧ i + 1 ≥ limit then [mkLogMsg c]
      else mkLogMsg c :: logLoop startTime endTime limit rest (i + 1)

/-- Numeric value of a decimal digit character. -/
def digitVal (c : Char) : Nat := c.toNat - 48

/-- Leap year test of the proleptic Gregorian calendar (Go `time`). -/
def isLeapYear (y : Nat) : Bool :=
  y % 4 = 0 && (y % 100 ≠ 0 || y % 400 = 0)

/-- Day count of a month (Go `time.daysIn`). -/
def daysInMonth (y m : Nat) : Nat :=
  if m = 2 then (if isLeapYear y then 29 else 28)
  else if m = 4 ∨ m = 6 ∨ m = 9 ∨ m = 11 then 30
  else 31

/-- Days in the years before year `y`, counted from the Go zero time
(January 1 of year 1). -/
def daysBeforeYear (y : Nat) : Int :=
  let n : Int := (y : Int) - 1
  365 * n + n.fdiv 4 - n.fdiv 100 + n.fdiv 400

/-- Cumulative day count of the months before month `m` in year `y`. -/
def daysBeforeMonth (y m : Nat) : Nat :=
  (List.range (m - 1)).foldl (fun acc i => acc + daysInMonth y (i + 1)) 0

/-- Seconds since the Go zero time of the given calendar instant. -/
def toGoSeconds (y mo d hh mi ss : Nat) : Int :=
  (daysBeforeYear y + (daysBeforeMonth y mo : Int) + ((d : Int) - 1)) * 86400 +
    (hh : Int) * 3600 + (mi : Int) * 60 + (ss : Int)

/-- Models Go `time.Parse` with the fixed layout 2006-01-02 15:04:05: the
input must match the layout byte for byte with valid field ranges; the
result counts seconds since the Go zero time (so the zero `time.Time` is 0).
Any mismatch yields `none`. -/
def parseDateTime (s : String) : Option Int :=
  match s.data with
  | [y1, y2, y3, y4, sep1, mo1, mo2, sep2, d1, d2, sep3,
     h1, h2, sep4, mi1, mi2, sep5, s1, s2] =>
    if sep1 = '-' ∧ sep2 = '-' ∧ sep3 = ' ' ∧ sep4 = ':' ∧ sep5 = ':' ∧
        y1.isDigit ∧ y2.isDigit ∧ y3.isDigit ∧ y4.isDigit ∧
        mo1.isDigit ∧ mo2.isDigit ∧ d1.isDigit ∧ d2.isDigit ∧
        h1.isDigit ∧ h2.isDigit ∧ mi1.isDigit ∧ mi2.isDigit ∧
        s1.isDigit ∧ s2.isDigit then
      let y := ((digitVal y1 * 10 + digitVal y2) * 10 + digitVal y3) * 10 +
        digitVal y4
      let mo := digitVal mo1 * 10 + digitVal mo2
      let d := digitVal d1 * 10 + digitVal d2
      let hh := digitVal h1 * 10 + digitVal h2
      let mi := digitVal mi1 * 10 + digitVal mi2
      let ss := digitVal s1 * 10 + digitVal s2
      if 1 ≤ mo ∧ mo ≤ 12 ∧ 1 ≤ d ∧ d ≤ daysInMonth y mo ∧ hh ≤ 23 ∧
          mi ≤ 59 ∧ ss ≤ 59 then
        some (toGoSeconds y mo d hh mi ss)
      else none
    else none
  | _ => none

/-- The bare-date normalization applied to the rendered start time: a
non-empty string of exactly ten bytes gets a start-of-day clock appended. -/
def normalizeStartStr (s : String) : String :=
  if s ≠ "" ∧ s.utf8ByteSize = 10 then s ++ " 00:00:00" else s

/-- The bare-date normalization applied to the rendered end time: a
non-empty string of exactly ten bytes gets an end-of-day clock appended. -/
def normalizeEndStr (s : String) : String :=
  if s ≠ "" ∧ s.utf8ByteSize = 10 then s ++ " 23:59:59" else s

/-- Models the JSON rendering of one signature by rulego `str.ToString`
(external); the exact encoding is opaque to the node. -/
def serializeSig (s : Sig) : String :=
  s.name ++ "|" ++ s.email ++ "|" ++ toString s.when

/-- Models the JSON rendering of one `LogMsg`. -/
def serializeLog (m : LogMsg) : String :=
  m.hash ++ ";" ++ serializeSig m.author ++ ";" ++ serializeSig m.committer ++
    ";" ++ m.mergeTag ++ ";" ++ m.message ++ ";" ++ m.treeHash ++ ";" ++
    m.encoding

/-- Models the JSON rendering of the collected log list. -/
def serializeLogs (l : List LogMsg) : String :=
  "[" ++ String.intercalate "," (l.map serializeLog) ++ "]"

/-- External collaborators of the log node: repository open and the commit
iterator ordered by committer time (`git.LogOrderCommitterTime`), newest
first, materialized as a list. -/
structure LogEffects where
  plainOpen : String → Option GitErr
  log : String → Except GitErr (List GitCommit)

/-- The log node: shared configuration, limit, the trimmed time strings and
the variable flag. -/
structure GitLogNode where
  base : BaseGitNodeConfiguration
  Limit : Int
  StartTime : String
  EndTime : String
  hasVar : Bool

/-- Models `GitLogNode.Init`: time strings are trimmed, and the variable
flag scans only the start and end time fields. -/
def GitLogNode.initNode (cfg : BaseGitNodeConfiguration) (limit : Int)
    (startTime endTime : String) : GitLogNode :=
  let st := trimSpace startTime
  let et := trimSpace endTime
  { base := cfg, Limit := limit, StartTime := st, EndTime := et,
    hasVar := CheckHasVar st || CheckHasVar et }

/-- Models `GitLogNode.OnMsg`: resolve and publish the work directory,
render and normalize the time strings, open the repository, parse the bounds
discarding parse errors, collect the bounded log and serialize it. -/
def GitLogNode.OnMsg (fx : LogEffects) (x : GitLogNode) (msg : RuleMsg) :
    RuleMsg × Outcome :=
  let evn := nodeEvn x.hasVar msg
  let workDir := getWorkDir x.base msg evn
  let msg1 := { msg with metadata := putValue msg.metadata KeyWorkDir workDir }
  let startTimeStr := normalizeStartStr (templateExecute x.StartTime evn)
  let endTimeStr := normalizeEndStr (templateExecute x.EndTime evn)
  match fx.plainOpen workDir with
  | some e => (msg1, .failure e)
  | none =>
    let startTime := (parseDateTime startTimeStr).getD 0
    let endTime := (parseDateTime endTimeStr).getD 0
    match fx.log workDir with
    | .error e => (msg1, .failure e)
    | .ok commits =>
      let messages := logLoop startTime endTime x.Limit commits 0
      ({ msg1 with dataType := "JSON", data := serializeLogs messages },
        .success)

/-! ### Host metrics node (`PsNode`) -/

/-- Option name constants of the metrics node. -/
def OptionsHostInfo : String := "host/info"

/-- Option name of the CPU information metric. -/
def OptionsCpuInfo : String := "cpu/info"

/-- Option name of the CPU usage metric. -/
def OptionsCpuPercent : String := "cpu/percent"

/-- Option name of the virtual memory metric. -/
def OptionsVirtualMemory : String := "mem/virtualMemory"

/-- Option name of the swap memory metric. -/
def OptionsSwapMemory : String := "mem/swapMemory"

/-- Option name of the disk usage metric. -/
def OptionsDiskUsage : String := "disk/usage"

/-- Option name of the disk IO counters metric. -/
def OptionsDiskIOCounters : String := "disk/ioCounters"

/-- Option name of the network IO counters metric. -/
def OptionsNetIOCounters : String := "net/ioCounters"

/-- Option name of the network interfaces metric. -/
def OptionsInterfaces : String := "net/interfaces"

/-- External collaborators of the metrics node: each gopsutil collector
yields `some` rendered value on success and `none` on failure (the Go code
ignores the error and stores the zero value). -/
structure PsEffects where
  hostInfo : Option String
  cpuInfo : Option String
  cpuPercent : Option String
  virtualMemory : Option String
  swapMemory : Option String
  diskUsage : Option String
  diskIOCounters : Option String
  netIOCounters : Option String
  interfaces : Option String

/-- The metrics node: configured options, the all-metrics flag and the
requested-metrics set. -/
structure PsNode where
  Options : List String
  All : Bool
  Metrics : List String

/-- Models `PsNode.Init`: an empty options list selects every metric. -/
def PsNode.initNode (options : List String) : PsNode :=
  { Options := options, All := options.isEmpty, Metrics := options }

/-- Models `PsNode.contains`. -/
def PsNode.contains (x : PsNode) (target : String) : Bool :=
  if x.All then true else x.Metrics.contains target

/-- Models the result-map construction of `PsNode.OnMsg`: a requested
metric's key is always added, carrying the collector result (which is the
zero value when collection failed). -/
def PsNode.collect (fx : PsEffects) (x : PsNode) : List (String × Option String) :=
  let result : List (String × Option String) := []
  let result := if x.All || x.contains OptionsHostInfo then
    result ++ [(OptionsHostInfo, fx.hostInfo)] else result
  let result := if x.All || x.contains OptionsCpuInfo then
    result ++ [(OptionsCpuInfo, fx.cpuInfo)] else result
  let result := if x.All || x.contains OptionsCpuPercent then
    result ++ [(OptionsCpuPercent, fx.cpuPercent)] else result
  let result := if x.contains OptionsVirtualMemory then
    result ++ [(OptionsVirtualMemory, fx.virtualMemory)] else result
  let result := if x.contains OptionsSwapMemory then
    result ++ [(OptionsSwapMemory, fx.swapMemory)] else result
  let result := if x.contains OptionsDiskUsage then
    result ++ [(OptionsDiskUsage, fx.diskUsage)] else result
  let result := if x.contains OptionsDiskIOCounters then
    result ++ [(OptionsDiskIOCounters, fx.diskIOCounters)] else result
  let result := if x.contains OptionsNetIOCounters then
    result ++ [(OptionsNetIOCounters, fx.netIOCounters)] else result
  let result := if x.contains OptionsInterfaces then
    result ++ [(OptionsInterfaces, fx.interfaces)] else result
  result

/-- Models the JSON rendering of the metrics map (`json.Marshal`): a failed
collector's key maps to its zero value, rendered here as null. -/
def serializeMetrics (l : List (String × Option String)) : String :=
  "[" ++ String.intercalate ","
    (l.map (fun kv => kv.1 ++ ":" ++ (kv.2.getD "null"))) ++ "]"

/-- Models `PsNode.OnMsg`: collect the requested metrics, serialize them
into the message data and always report success. -/
def PsNode.OnMsg (fx : PsEffects) (x : PsNode) (msg : RuleMsg) :
    RuleMsg × Outcome :=
  let result := PsNode.collect fx x
  ({ msg with data := serializeMetrics result }, .success)

/-! ### Specification-side definitions -/

/-- Spec reading of the repository short name: the last slash-separated
segment of the URL with a trailing .git suffix removed, stated independently
of the split-based implementation. -/
def specRepoShortName (u : String) : String :=
  trimSuffix
    (String.mk ((u.data.reverse.takeWhile (fun c => c ≠ '/')).reverse)) ".git"

/-- The precedence-resolved base directory used by `getWorkDir` before the
join: configured literal, metadata fallback when the literal is empty,
template rendering when an environment exists. -/
def resolveBaseDirectory (cfg : BaseGitNodeConfiguration) (msg : RuleMsg)
    (evn : Option (String → String)) : String :=
  if cfg.Directory = "" then msg.metadata KeyWorkDir
  else
    match evn with
    | some e => ExecuteTemplate cfg.Directory e
    | none => cfg.Directory

/-! ### Concrete fixtures for witnesses and counterexamples -/

/-- A base configuration with an HTTP repository literal, empty directory
and reference, token auth. -/
def cfgW : BaseGitNodeConfiguration :=
  { Repository := "https://example/repo.git", Directory := "", Reference := "",
    AuthType := "token", AuthUser := "u", AuthPassword := "p",
    AuthPemFile := "", ProxyUrl := "", ProxyUsername := "",
    ProxyPassword := "", RefSpecs := "" }

/-- A message carrying the well-known metadata fallbacks. -/
def msgW : RuleMsg :=
  { metadata := fun k =>
      if k = "workDir" then "/base"
      else if k = "ref" then "dev"
      else if k = "gitHttpUrl" then "https://example/repo.git"
      else if k = "gitSshUrl" then "git@example:repo.git"
      else "",
    data := "", dataType := "JSON" }

/-- A configuration whose directory field carries a template marker while
every other templated field is marker-free. -/
def cfgDirVar : BaseGitNodeConfiguration :=
  { cfgW with Directory := "$\x7bmetadata.dir\x7d" }

/-- A message binding the metadata key dir used by `cfgDirVar`. -/
def msgDirVar : RuleMsg :=
  { metadata := fun k => if k = "dir" then "/base" else "",
    data := "", dataType := "JSON" }

/-- Log-node collaborators that always succeed and return no commits. -/
def fxLogEmpty : LogEffects :=
  { plainOpen := fun _ => none, log := fun _ => .ok [] }

/-- An ssh key loader that always succeeds. -/
def loadKeysOk : String → String → String → Except GitErr SshKeyCred :=
  fun u f _ => .ok { user := u, pemFile := f }

/-- Clone-node collaborators for an existing, already up-to-date clone. -/
def fxCloneUpToDate : CloneEffects :=
  { loadKeys := loadKeysOk, statMissing := fun _ => false,
    plainClone := fun _ _ => none, plainOpen := fun _ => none,
    worktree := fun _ => none, pull := fun _ _ => some .alreadyUpToDate }

/-- Commit-node collaborators for a repository whose working tree is clean. -/
def fxCommitClean : CommitEffects :=
  { plainOpen := fun _ => none, worktree := fun _ => none,
    statusClean := fun _ => .ok true, addGlob := fun _ _ => none,
    commitOp := fun _ _ _ => .ok "deadbeef", now := 1700000000 }

/-- Tag-node collaborators for an opened repository whose HEAD resolution
fails (for example a repository with no commits). -/
def fxTagNoHead : TagEffects :=
  { plainOpen := fun _ => none,
    headRef := fun _ => .error (.msg "reference not found"),
    commitObject := fun _ h => .ok h,
    createTag := fun _ _ c _ _ => .ok c, now := 1700000000 }

/-- Metrics collaborators where every collector fails. -/
def fxPsAllFail : PsEffects :=
  { hostInfo := none, cpuInfo := none, cpuPercent := none,
    virtualMemory := none, swapMemory := none, diskUsage := none,
    diskIOCounters := none, netIOCounters := none, interfaces := none }

/-- A commit fixture with committer time `t`. -/
def mkCommitAt (h : String) (t : Int) : GitCommit :=
  { hash := h, author := { name := "a", email := "a@x", when := t },
    committer := { name := "c", email := "c@x", when := t },
    mergeTag := "", message := "m " ++ h, treeHash := "t" ++ h,
    encoding := "UTF-8" }

/-- Log-node collaborators returning three commits at times 30, 20, 10
(newest first, committer-time order). -/
def fxLogThree : LogEffects :=
  { plainOpen := fun _ => none,
    log := fun _ => .ok [mkCommitAt "c3" 30, mkCommitAt "c2" 20,
      mkCommitAt "c1" 10] }

/-- A concrete commit node over `cfgW`. -/
def commitNodeW : GitCommitNode :=
  GitCommitNode.initNode cfgW "*.go" "release notes"
    { AuthorName := "n", AuthorEmail := "n@x" }

/-- A concrete create-tag node over `cfgW`. -/
def tagNodeW : GitCreateTagNode :=
  GitCreateTagNode.initNode cfgW "v1.0" "release"
    { AuthorName := "n", AuthorEmail := "n@x" }

/-- A metrics node requesting only the host-info option. -/
def psSingleHost : PsNode := PsNode.initNode [OptionsHostInfo]

/-- A log node whose start time normalizes to a non-parsing string. -/
def logNodeBadStart : GitLogNode := GitLogNode.initNode cfgW 0 "2024-13-99" ""

/-- A log node whose directory field carries a marker while both time
fields are marker-free. -/
def logNodeDirVar : GitLogNode := GitLogNode.initNode cfgDirVar 0 "" ""

/-! ### Helper lemmas about the template renderer -/

theorem renderFuel_no_var (env : String → String) :
    ∀ (fuel : Nat) (l : List Char), findVar l = false → renderFuel env fuel l = l := by
  intro fuel
  induction fuel with
  | zero => intro l _; rfl
  | succ n ih =>
    intro l h
    cases l with
    | nil => rfl
    | cons c rest =>
      have h' : ((c = '$' && rest.head? = some '\x7b') || findVar rest) = false := h
      rw [Bool.or_eq_false_iff] at h'
      simp only [renderFuel, h'.1, Bool.false_eq_true, if_false]
      rw [ih rest h'.2]

theorem ExecuteTemplate_no_var (s : String) (env : String → String)
    (h : CheckHasVar s = false) : ExecuteTemplate s env = s := by
  unfold ExecuteTemplate
  rw [renderFuel_no_var env _ _ h]

/-! ### Helper lemmas about splitting -/

theorem goSplitChar_ne_nil (sep : Char) (l : List Char) :
    goSplitChar sep l ≠ [] := by
  induction l with
  | nil => simp [goSplitChar]
  | cons c rest ih =>
    simp only [goSplitChar]
    split
    · simp
    · cases hS : goSplitChar sep rest with
      | nil => exact absurd hS ih
      | cons h t => simp

theorem goSplitChar_of_not_mem (sep : Char) (l : List Char) (h : sep ∉ l) :
    goSplitChar sep l = [l] := by
  induction l with
  | nil => rfl
  | cons c rest ih =>
    have hc : ¬c = sep := fun hc => h (hc ▸ List.mem_cons_self c rest)
    have hrest : sep ∉ rest := fun hm => h (List.mem_cons_of_mem c hm)
    simp only [goSplitChar, if_neg hc, ih hrest]

theorem two_le_length_goSplitChar (sep : Char) (l : List Char) (h : sep ∈ l) :
    2 ≤ (goSplitChar sep l).length := by
  induction l with
  | nil => cases h
  | cons c rest ih =>
    simp only [goSplitChar]
    by_cases hc : c = sep
    · rw [if_pos hc]
      have := goSplitChar_ne_nil sep rest
      cases hS : goSplitChar sep rest with
      | nil => exact absurd hS this
      | cons x xs => simp
    · rw [if_neg hc]
      have hmem : sep ∈ rest := by
        cases List.mem_cons.mp h with
        | inl heq => exact absurd heq.symm hc
        | inr hm => exact hm
      have h2 := ih hmem
      cases hS : goSplitChar sep rest with
      | nil => exact absurd hS (goSplitChar_ne_nil sep rest)
      | cons x xs =>
        rw [hS] at h2
        simpa using h2

theorem takeWhile_length_eq_self {α : Type} (p : α → Bool) :
    ∀ (l : List α), (List.takeWhile p l).length = l.length →
      List.takeWhile p l = l := by
  intro l
  induction l with
  | nil => intro _; rfl
  | cons x xs ih =>
    intro h
    cases hx : p x with
    | false => rw [List.takeWhile_cons, hx] at h ⊢; simp at h
    | true =>
      rw [List.takeWhile_cons, hx] at h ⊢
      simp only [if_true, List.length_cons, Nat.succ.injEq] at h
      simp only [if_true, List.cons.injEq, true_and]
      exact ih h

theorem getLastD_goSplitChar (sep : Char) (l : List Char) :
    ∀ d, (goSplitChar sep l).getLastD d =
      (l.reverse.takeWhile (fun c => c ≠ sep)).reverse := by
  induction l with
  | nil => intro d; simp [goSplitChar]
  | cons c rest ih =>
    intro d
    by_cases hc : c = sep
    · subst hc
      simp only [goSplitChar, eq_self_iff_true, if_true]
      rw [List.getLastD_cons, ih]
      rw [List.reverse_cons, List.takeWhile_append]
      split
      · next hlen =>
        have hall := takeWhile_length_eq_self _ _ hlen
        rw [hall]
        simp
      · rfl
    · by_cases hmem : sep ∈ rest
      · have h2 := two_le_length_goSplitChar sep rest hmem
        cases hS : goSplitChar sep rest with
        | nil => exact absurd hS (goSplitChar_ne_nil sep rest)
        | cons h1 t1 =>
          cases t1 with
          | nil => rw [hS] at h2; simp at h2
          | cons h2' t2 =>
            simp only [goSplitChar, if_neg hc, hS]
            rw [List.getLastD_cons, List.getLastD_cons]
            have hih := ih d
            rw [hS, List.getLastD_cons, List.getLastD_cons] at hih
            rw [hih]
            rw [List.reverse_cons, List.takeWhile_append]
            split
            · next hlen =>
              have hall := takeWhile_length_eq_self _ _ hlen
              have := List.takeWhile_eq_self_iff.mp hall
              have hsep : sep ∈ rest.reverse := List.mem_reverse.mpr hmem
              have := this sep hsep
              simp at this
            · rfl
      · have hS := goSplitChar_of_not_mem sep rest hmem
        simp only [goSplitChar, if_neg hc, hS]
        rw [List.getLastD_cons, List.getLastD_nil]
        rw [List.reverse_cons, List.takeWhile_append]
        have hall : List.takeWhile (fun ch => ch ≠ sep) rest.reverse =
            rest.reverse := by
          rw [List.takeWhile_eq_self_iff]
          intro x hx
          have : x ∈ rest := List.mem_reverse.mp hx
          have : ¬x = sep := fun he => hmem (he ▸ this)
          simpa using this
        rw [if_pos (by rw [hall])]
        have hcne : (fun ch => decide (ch ≠ sep)) c = true := by simpa using hc
        simp [List.takeWhile_cons, hcne, hc]

end CI

namespace CI

/-! ### Claim C2 -/

/-- C2: work-directory derivation is a pure deterministic function — the
resolved work directory always equals the precedence-resolved base directory
joined with the last slash-separated segment of the repository URL minus a
trailing .git suffix, and all five git operations publish exactly this
shared derivation under the work-directory metadata key. -/
theorem c2_workdir_derivation :
    (∀ (u : String), getRepoName u = specRepoShortName u) ∧
    (∀ cfg msg evn, getWorkDir cfg msg evn =
      pathJoin2 (resolveBaseDirectory cfg msg evn)
        (specRepoShortName (getRepository cfg msg evn))) ∧
    (∀ fx x msg, ((GitCloneNode.OnMsg fx x msg).1).metadata KeyWorkDir =
      getWorkDir x.base msg (nodeEvn x.hasVar msg)) ∧
    (∀ fx x msg, ((GitCommitNode.OnMsg fx x msg).1).metadata KeyWorkDir =
      getWorkDir x.base msg (nodeEvn x.hasVar msg)) ∧
    (∀ fx x msg, ((GitCreateTagNode.OnMsg fx x msg).1).metadata KeyWorkDir =
      getWorkDir x.base msg (nodeEvn x.hasVar msg)) ∧
    (∀ fx x msg, ((GitPushNode.OnMsg fx x msg).1).metadata KeyWorkDir =
      getWorkDir x.base msg (nodeEvn x.hasVar msg)) ∧
    (∀ fx x msg, ((GitLogNode.OnMsg fx x msg).1).metadata KeyWorkDir =
      getWorkDir x.base msg (nodeEvn x.hasVar msg)) := by
  have hshort : ∀ (u : String), getRepoName u = specRepoShortName u := by
    intro u
    simp only [getRepoName, specRepoShortName]
    rw [getLastD_goSplitChar]
  refine ⟨hshort, ?_, ?_, ?_, ?_, ?_, ?_⟩
  · intro cfg msg evn
    unfold getWorkDir resolveBaseDirectory
    rw [hshort]
  · intro fx x msg
    simp only [GitCloneNode.OnMsg]
    repeat' split
    all_goals simp [putValue, KeyWorkDir, KeyHash]
  · intro fx x msg
    simp only [GitCommitNode.OnMsg]
    repeat' split
    all_goals simp [putValue, KeyWorkDir, KeyHash]
  · intro fx x msg
    simp only [GitCreateTagNode.OnMsg]
    repeat' split
    all_goals simp [putValue, KeyWorkDir, KeyHash]
  · intro fx x msg
    simp only [GitPushNode.OnMsg]
    repeat' split
    all_goals simp [putValue, KeyWorkDir, KeyHash]
  · intro fx x msg
    simp only [GitLogNode.OnMsg]
    repeat' split
    all_goals simp [putValue, KeyWorkDir, KeyHash]

end CI


namespace CI

/-! ### Claim C1 -/

/-- C1 counterexample: for the work-directory field configured empty, the
resolved value is not the metadata value itself — the repository short name
is joined onto it — refuting the claim that the resolved value equals the
value stored under the well-known key. -/
theorem c1_counterexample :
    cfgW.Directory = "" ∧
    msgW.metadata KeyWorkDir = "/base" ∧
    getWorkDir cfgW msgW none = "/base/repo" ∧
    getWorkDir cfgW msgW none ≠ msgW.metadata KeyWorkDir := by
  refine ⟨rfl, rfl, ?_, ?_⟩ <;> decide

/-- C1 amended: for the reference and repository fields the stated
precedence holds verbatim (empty literal reads the well-known metadata key,
a non-empty marker-free literal resolves to itself under any environment, a
non-empty literal resolves to its rendering whenever an environment was
built); for the work-directory field the same precedence resolves the base
directory, and the resolved value is that base joined with the repository
short name. -/
theorem c1_amended_config_precedence (cfg : BaseGitNodeConfiguration)
    (msg : RuleMsg) (evn : Option (String → String)) (e : String → String) :
    (cfg.Reference = "" → getReferenceName cfg msg evn = msg.metadata KeyRef) ∧
    (cfg.Reference ≠ "" → CheckHasVar cfg.Reference = false →
      getReferenceName cfg msg evn = cfg.Reference) ∧
    (cfg.Reference ≠ "" →
      getReferenceName cfg msg (some e) = ExecuteTemplate cfg.Reference e) ∧
    (cfg.Repository = "" → (cfg.AuthType = "ssh-key" ∨ cfg.AuthType = "ssh") →
      getRepository cfg msg evn = msg.metadata KeyGitSshUrl) ∧
    (cfg.Repository = "" → ¬(cfg.AuthType = "ssh-key" ∨ cfg.AuthType = "ssh") →
      getRepository cfg msg evn = msg.metadata KeyGitHttpUrl) ∧
    (cfg.Repository ≠ "" → CheckHasVar cfg.Repository = false →
      getRepository cfg msg evn = cfg.Repository) ∧
    (cfg.Repository ≠ "" →
      getRepository cfg msg (some e) = ExecuteTemplate cfg.Repository e) ∧
    (cfg.Directory = "" → getWorkDir cfg msg evn =
      pathJoin2 (msg.metadata KeyWorkDir)
        (getRepoName (getRepository cfg msg evn))) ∧
    (cfg.Directory ≠ "" → CheckHasVar cfg.Directory = false →
      getWorkDir cfg msg evn =
        pathJoin2 cfg.Directory (getRepoName (getRepository cfg msg evn))) ∧
    (cfg.Directory ≠ "" →
      getWorkDir cfg msg (some e) =
        pathJoin2 (ExecuteTemplate cfg.Directory e)
          (getRepoName (getRepository cfg msg (some e)))) := by
  refine ⟨?_, ?_, ?_, ?_, ?_, ?_, ?_, ?_, ?_, ?_⟩
  · intro h
    simp only [getReferenceName, if_pos h]
  · intro h hv
    simp only [getReferenceName, if_neg h]
    cases evn with
    | none => rfl
    | some e' => exact ExecuteTemplate_no_var _ e' hv
  · intro h
    simp only [getReferenceName, if_neg h]
  · intro h hA
    simp only [getRepository, if_pos h, if_pos hA]
  · intro h hA
    simp only [getRepository, if_pos h, if_neg hA]
  · intro h hv
    simp only [getRepository, if_neg h]
    cases evn with
    | none => rfl
    | some e' => exact ExecuteTemplate_no_var _ e' hv
  · intro h
    simp only [getRepository, if_neg h]
  · intro h
    simp only [getWorkDir, if_pos h]
  · intro h hv
    simp only [getWorkDir, if_neg h]
    cases evn with
    | none => rfl
    | some e' =>
      show pathJoin2 (ExecuteTemplate cfg.Directory e') _ = _
      rw [ExecuteTemplate_no_var _ e' hv]
  · intro h
    simp only [getWorkDir, if_neg h]

/-- C1 amended witness: concrete instantiation — the empty reference reads
the metadata ref key and the empty directory resolves to the metadata base
joined with the repository short name. -/
theorem c1_amended_config_precedence_witness :
    getReferenceName cfgW msgW none = msgW.metadata KeyRef ∧
    getWorkDir cfgW msgW none =
      pathJoin2 (msgW.metadata KeyWorkDir)
        (getRepoName (getRepository cfgW msgW none)) ∧
    getRepository cfgW msgW none = cfgW.Repository :=
  have h := c1_amended_config_precedence cfgW msgW none (fun _ => "")
  ⟨h.1 rfl, (h.2.2.2.2.2.2.2.1) rfl,
    (h.2.2.2.2.2.1) (by decide) (by decide)⟩

end CI

namespace CI

/-! ### Claim C3 -/

/-- C3: in clone-or-pull with an existing work directory, a pull reporting
the already-up-to-date outcome is remapped to success, any other pull error
is reported as failure carrying that error, and a clean pull succeeds — so
repeated invocations against an unchanged remote always report success. -/
theorem c3_pull_already_up_to_date (fx : CloneEffects) (x : GitCloneNode)
    (msg : RuleMsg) (wd : String) (opts : PullOptions) (auth : AuthMethod)
    (hwd : wd = getWorkDir x.base msg (nodeEvn x.hasVar msg))
    (hstat : fx.statMissing wd = false)
    (hopen : fx.plainOpen wd = none)
    (hwt : fx.worktree wd = none)
    (hauth : getAuthMethod fx.loadKeys x.base = .ok auth)
    (hopts : opts = buildPullOptions x.base
      (getRepository x.base
        { msg with metadata := putValue msg.metadata KeyWorkDir wd }
        (nodeEvn x.hasVar msg))
      (getReferenceName x.base msg (nodeEvn x.hasVar msg)) auth) :
    (fx.pull wd opts = some .alreadyUpToDate →
      (GitCloneNode.OnMsg fx x msg).2 = .success) ∧
    (∀ s, fx.pull wd opts = some (.msg s) →
      (GitCloneNode.OnMsg fx x msg).2 = .failure (.msg s)) ∧
    (fx.pull wd opts = none → (GitCloneNode.OnMsg fx x msg).2 = .success) := by
  subst hwd
  subst hopts
  refine ⟨?_, ?_, ?_⟩
  · intro hp
    simp [GitCloneNode.OnMsg, hstat, hopen, hwt, hauth, hp]
  · intro s hp
    simp [GitCloneNode.OnMsg, hstat, hopen, hwt, hauth, hp]
  · intro hp
    simp [GitCloneNode.OnMsg, hstat, hopen, hwt, hauth, hp]

/-- C3 witness: a concrete clone node over an existing up-to-date clone
reports success. -/
theorem c3_pull_already_up_to_date_witness :
    (GitCloneNode.OnMsg fxCloneUpToDate (GitCloneNode.initNode cfgW) msgW).2 =
      .success :=
  (c3_pull_already_up_to_date fxCloneUpToDate (GitCloneNode.initNode cfgW)
    msgW _ _ (.basicAuth "u" "p") rfl rfl rfl rfl rfl rfl).1 rfl

/-! ### Claim C4 -/

/-- C4: the commit operation on a repository whose status reports a clean
working tree fails with the no-changes-to-commit business error and leaves
the hash metadata key unchanged. -/
theorem c4_commit_clean_tree (fx : CommitEffects) (x : GitCommitNode)
    (msg : RuleMsg) (wd : String)
    (hwd : wd = getWorkDir x.base msg (nodeEvn x.hasVar msg))
    (hopen : fx.plainOpen wd = none)
    (hwt : fx.worktree wd = none)
    (hstatus : fx.statusClean wd = .ok true) :
    (GitCommitNode.OnMsg fx x msg).2 = .failure (.msg "no changes to commit") ∧
    ((GitCommitNode.OnMsg fx x msg).1).metadata KeyHash =
      msg.metadata KeyHash := by
  subst hwd
  constructor
  · simp [GitCommitNode.OnMsg, hopen, hwt, hstatus]
  · simp [GitCommitNode.OnMsg, hopen, hwt, hstatus, putValue, KeyHash,
      KeyWorkDir]

/-- C4 witness: a concrete commit node over a clean tree fails with the
business error and the prior hash value is untouched. -/
theorem c4_commit_clean_tree_witness :
    (GitCommitNode.OnMsg fxCommitClean commitNodeW msgW).2 =
      .failure (.msg "no changes to commit") ∧
    ((GitCommitNode.OnMsg fxCommitClean commitNodeW msgW).1).metadata KeyHash =
      msgW.metadata KeyHash :=
  c4_commit_clean_tree fxCommitClean commitNodeW msgW _ rfl rfl rfl rfl

/-! ### Claim C6 -/

/-- C6: the auth selector maps the token, username-password and password
tags to a basic credential built from the user and secret fields, the
ssh-key and ssh tags to the ssh key loaded from the key file (propagating
the loader error), and any other tag to the unsupported-auth-type error
with no credential. -/
theorem c6_auth_selector
    (loadKeys : String → String → String → Except GitErr SshKeyCred)
    (cfg : BaseGitNodeConfiguration) :
    (cfg.AuthType = "token" ∨ cfg.AuthType = "username-password" ∨
        cfg.AuthType = "password" →
      getAuthMethod loadKeys cfg =
        .ok (.basicAuth cfg.AuthUser cfg.AuthPassword)) ∧
    (cfg.AuthType = "ssh-key" ∨ cfg.AuthType = "ssh" →
      getAuthMethod loadKeys cfg =
        (loadKeys cfg.AuthUser cfg.AuthPemFile cfg.AuthPassword).map
          .publicKeys) ∧
    (cfg.AuthType ≠ "token" → cfg.AuthType ≠ "username-password" →
      cfg.AuthType ≠ "password" → cfg.AuthType ≠ "ssh-key" →
      cfg.AuthType ≠ "ssh" →
      getAuthMethod loadKeys cfg =
        .error (.msg ("not authType=" ++ cfg.AuthType))) := by
  refine ⟨?_, ?_, ?_⟩
  · intro h
    rcases h with h | h | h <;> simp [getAuthMethod, h]
  · intro h
    rcases h with h | h <;>
      simp only [getAuthMethod, h] <;>
      cases hl : loadKeys cfg.AuthUser cfg.AuthPemFile cfg.AuthPassword <;>
      simp [hl, Except.map]
  · intro h1 h2 h3 h4 h5
    simp only [getAuthMethod]
    rw [if_neg (fun hc => hc.elim h4 h5), if_neg (fun hc => hc.elim h2 h3),
      if_neg h1]

/-- C6 witness: concrete tags — token yields the basic credential, ssh
yields the loaded key, an unknown tag yields the unsupported-auth-type
error. -/
theorem c6_auth_selector_witness :
    getAuthMethod loadKeysOk cfgW = .ok (.basicAuth "u" "p") ∧
    getAuthMethod loadKeysOk { cfgW with AuthType := "ssh" } =
      (loadKeysOk "u" "" "p").map .publicKeys ∧
    getAuthMethod loadKeysOk { cfgW with AuthType := "basic" } =
      .error (.msg ("not authType=" ++ "basic")) :=
  ⟨(c6_auth_selector loadKeysOk cfgW).1 (Or.inl rfl),
   (c6_auth_selector loadKeysOk { cfgW with AuthType := "ssh" }).2.1
     (Or.inr rfl),
   (c6_auth_selector loadKeysOk { cfgW with AuthType := "basic" }).2.2
     (by decide) (by decide) (by decide) (by decide) (by decide)⟩

end CI

namespace CI

/-! ### Claim C5 -/

theorem logLoop_limit_zero (s e : Int) :
    ∀ (commits : List GitCommit) (i : Int),
      logLoop s e 0 commits i =
        (commits.filter (fun c => !outOfRange s e c)).map mkLogMsg := by
  intro commits
  induction commits with
  | nil => intro i; rfl
  | cons c rest ih =>
    intro i
    by_cases hc : outOfRange s e c = true
    · simp [logLoop, hc, ih, List.filter_cons]
    · simp [logLoop, hc, ih, List.filter_cons]

theorem logLoop_limit_pos (s e : Int) (limit : Int) (hpos : 0 < limit) :
    ∀ (commits : List GitCommit) (i : Int), 0 ≤ i → i < limit →
      logLoop s e limit commits i =
        ((commits.filter (fun c => !outOfRange s e c)).take
          (limit - i).toNat).map mkLogMsg := by
  intro commits
  induction commits with
  | nil => intro i _ _; simp [logLoop]
  | cons c rest ih =>
    intro i hi hlt
    simp only [logLoop]
    by_cases hc : outOfRange s e c = true
    · rw [if_pos hc, ih i hi hlt]
      simp [List.filter_cons, hc]
    · rw [if_neg hc]
      have hcf : outOfRange s e c = false := by
        cases h2 : outOfRange s e c
        · rfl
        · exact absurd h2 hc
      have hpred : (!outOfRange s e c) = true := by rw [hcf]; rfl
      by_cases hstop : i + 1 ≥ limit
      · have hcond : limit ≠ 0 ∧ i + 1 ≥ limit := ⟨by omega, hstop⟩
        rw [if_pos hcond]
        have h1 : (limit - i).toNat = 1 := by omega
        simp [List.filter_cons, hpred, h1]
      · have hcond : ¬(limit ≠ 0 ∧ i + 1 ≥ limit) := fun h => hstop h.2
        rw [if_neg hcond]
        rw [ih (i + 1) (by omega) (by omega)]
        have h2 : (limit - i).toNat = (limit - (i + 1)).toNat + 1 := by omega
        simp [List.filter_cons, hpred, h2]

/-- C5: the log loop returns exactly the commits inside every applied bound
(zero bounds are unbounded), truncated to the configured limit when it is
positive and unbounded when the limit is zero, preserving the newest-first
committer-time order of the input iterator. -/
theorem c5_log_query (commits : List GitCommit) (s e : Int) (limit : Int) :
    (limit = 0 → logLoop s e limit commits 0 =
      (commits.filter (fun c => !outOfRange s e c)).map mkLogMsg) ∧
    (0 < limit → logLoop s e limit commits 0 =
      ((commits.filter (fun c => !outOfRange s e c)).take limit.toNat).map
        mkLogMsg) ∧
    (List.Pairwise (fun a b => b.committer.when ≤ a.committer.when) commits →
      0 ≤ limit →
      List.Pairwise (fun a b => b.committer.when ≤ a.committer.when)
        (logLoop s e limit commits 0)) := by
  have hzero := logLoop_limit_zero s e commits 0
  refine ⟨?_, ?_, ?_⟩
  · intro h; subst h; exact hzero
  · intro h
    rw [logLoop_limit_pos s e limit h commits 0 le_rfl h]
    norm_num
  · intro hp hnn
    rcases lt_or_eq_of_le hnn with hpos | hzero'
    · rw [logLoop_limit_pos s e limit hpos commits 0 le_rfl hpos]
      exact List.Pairwise.map _ (fun a b hab => hab)
        (((hp.filter _).sublist (List.take_sublist _ _)))
    · subst hzero'
      rw [hzero]
      exact List.Pairwise.map _ (fun a b hab => hab) (hp.filter _)

/-- C5 witness: over commits at times 30, 20, 10, the window 11 to 29
returns only the middle commit, and limit 2 with three matches returns
exactly the two newest. -/
theorem c5_log_query_witness :
    logLoop 11 29 0
      [mkCommitAt "c3" 30, mkCommitAt "c2" 20, mkCommitAt "c1" 10] 0 =
      [mkLogMsg (mkCommitAt "c2" 20)] ∧
    logLoop 0 0 2
      [mkCommitAt "c3" 30, mkCommitAt "c2" 20, mkCommitAt "c1" 10] 0 =
      [mkLogMsg (mkCommitAt "c3" 30), mkLogMsg (mkCommitAt "c2" 20)] :=
  ⟨(c5_log_query [mkCommitAt "c3" 30, mkCommitAt "c2" 20,
      mkCommitAt "c1" 10] 11 29 0).1 rfl,
   (c5_log_query [mkCommitAt "c3" 30, mkCommitAt "c2" 20,
      mkCommitAt "c1" 10] 0 0 2).2.1 (by norm_num)⟩

end CI

namespace CI

/-! ### Claim C7 -/

theorem getReferenceName_no_var (cfg : BaseGitNodeConfiguration)
    (msg : RuleMsg) (e : String → String)
    (h : CheckHasVar cfg.Reference = false) :
    getReferenceName cfg msg (some e) = getReferenceName cfg msg none := by
  by_cases hr : cfg.Reference = ""
  · simp [getReferenceName, hr]
  · simp only [getReferenceName, if_neg hr]
    exact ExecuteTemplate_no_var _ e h

theorem getRepository_no_var (cfg : BaseGitNodeConfiguration)
    (msg : RuleMsg) (e : String → String)
    (h : CheckHasVar cfg.Repository = false) :
    getRepository cfg msg (some e) = getRepository cfg msg none := by
  by_cases hr : cfg.Repository = ""
  · simp [getRepository, hr]
  · simp only [getRepository, if_neg hr]
    exact ExecuteTemplate_no_var _ e h

theorem getWorkDir_no_var (cfg : BaseGitNodeConfiguration)
    (msg : RuleMsg) (e : String → String)
    (hd : CheckHasVar cfg.Directory = false)
    (hr : CheckHasVar cfg.Repository = false) :
    getWorkDir cfg msg (some e) = getWorkDir cfg msg none := by
  simp only [getWorkDir]
  rw [getRepository_no_var cfg msg e hr]
  congr 1
  by_cases h : cfg.Directory = ""
  · rw [if_pos h, if_pos h]
  · rw [if_neg h, if_neg h]
    exact ExecuteTemplate_no_var _ e hd

/-- C7 counterexample: the log node computes its variable flag only from the
time fields, so a marker-bearing directory field is left unrendered — the
published work directory differs from the one obtained when the execution
environment is always built and rendered, refuting the claim that the flag
never changes resolution results. -/
theorem c7_counterexample :
    logNodeDirVar.hasVar = false ∧
    ((GitLogNode.OnMsg fxLogEmpty logNodeDirVar msgDirVar).1).metadata
      KeyWorkDir = "$\x7bmetadata.dir\x7d/repo" ∧
    getWorkDir cfgDirVar msgDirVar (some (GetEvnAndMetadata msgDirVar)) =
      "/base/repo" ∧
    ((GitLogNode.OnMsg fxLogEmpty logNodeDirVar msgDirVar).1).metadata
      KeyWorkDir ≠
      getWorkDir cfgDirVar msgDirVar (some (GetEvnAndMetadata msgDirVar)) := by
  refine ⟨rfl, ?_, ?_, ?_⟩ <;> decide

/-- C7 amended: the flag is resolution-neutral only for nodes whose flag
scans every field their resolution consumes — as the clone node does: its
work-directory, reference and repository resolutions are identical whether
the environment comes from the flag or is always built.  The log node
violates neutrality through its unscanned templated directory field (see
the counterexample). -/
theorem c7_amended_clone_flag_neutral (cfg : BaseGitNodeConfiguration)
    (msg : RuleMsg) :
    getWorkDir cfg msg (nodeEvn (GitCloneNode.initNode cfg).hasVar msg) =
      getWorkDir cfg msg (some (GetEvnAndMetadata msg)) ∧
    getReferenceName cfg msg (nodeEvn (GitCloneNode.initNode cfg).hasVar msg) =
      getReferenceName cfg msg (some (GetEvnAndMetadata msg)) ∧
    getRepository cfg msg (nodeEvn (GitCloneNode.initNode cfg).hasVar msg) =
      getRepository cfg msg (some (GetEvnAndMetadata msg)) := by
  by_cases h : (GitCloneNode.initNode cfg).hasVar = true
  · rw [nodeEvn, if_pos h]
    exact ⟨rfl, rfl, rfl⟩
  · rw [Bool.not_eq_true] at h
    have hproj : ((CheckHasVar cfg.Repository || CheckHasVar cfg.Directory) ||
        CheckHasVar cfg.Reference) = false := h
    rw [Bool.or_eq_false_iff, Bool.or_eq_false_iff] at hproj
    have hne : nodeEvn (GitCloneNode.initNode cfg).hasVar msg = none := by
      rw [nodeEvn, h]
      rfl
    rw [hne]
    exact ⟨(getWorkDir_no_var _ _ _ hproj.1.2 hproj.1.1).symm,
      (getReferenceName_no_var _ _ _ hproj.2).symm,
      (getRepository_no_var _ _ _ hproj.1.1).symm⟩

/-! ### Claim C8 -/

/-- C8: refuted at the create-tag node — when HEAD resolution fails the
empty error handler falls through to a hash extraction on the nil HEAD
reference, a nil-pointer dereference: the invocation panics (no outcome is
ever signalled, modelled as `none`) instead of surfacing a reported failure
at the commit-object fetch. -/
theorem c8_tag_head_failure_fault :
    fxTagNoHead.headRef "/base/repo" = .error (.msg "reference not found") ∧
    (GitCreateTagNode.OnMsg fxTagNoHead tagNodeW msgW).2 = none := by
  exact ⟨rfl, rfl⟩

/-! ### Claim C9 -/

/-- C9 counterexample: with only the host-info metric requested and its
collector failing, the key is still present in the result map, bound to the
collector's zero value — refuting the claim that a failed metric's key is
absent — while the snapshot still succeeds. -/
theorem c9_counterexample :
    fxPsAllFail.hostInfo = none ∧
    PsNode.collect fxPsAllFail psSingleHost = [(OptionsHostInfo, none)] ∧
    (PsNode.OnMsg fxPsAllFail psSingleHost msgW).2 = .success := by
  refine ⟨rfl, by decide, rfl⟩

/-- C9 amended: an empty options set yields every metric key, whether or
not its collector succeeds; a single requested option yields exactly that
key; a failed collector's key is still present, carrying the collector's
zero value; and the snapshot always reports success. -/
theorem c9_amended_metrics (fx : PsEffects) :
    (∀ x : PsNode, x.All = true →
      (PsNode.collect fx x).map Prod.fst =
        [OptionsHostInfo, OptionsCpuInfo, OptionsCpuPercent,
         OptionsVirtualMemory, OptionsSwapMemory, OptionsDiskUsage,
         OptionsDiskIOCounters, OptionsNetIOCounters, OptionsInterfaces]) ∧
    (∀ k, k ∈ [OptionsHostInfo, OptionsCpuInfo, OptionsCpuPercent,
         OptionsVirtualMemory, OptionsSwapMemory, OptionsDiskUsage,
         OptionsDiskIOCounters, OptionsNetIOCounters, OptionsInterfaces] →
      (PsNode.collect fx (PsNode.initNode [k])).map Prod.fst = [k]) ∧
    (∀ (x : PsNode) (msg : RuleMsg), (PsNode.OnMsg fx x msg).2 = .success) := by
  refine ⟨?_, ?_, ?_⟩
  · intro x hAll
    simp [PsNode.collect, PsNode.contains, hAll]
  · intro k hk
    simp only [List.mem_cons, List.not_mem_nil, or_false] at hk
    rcases hk with rfl | rfl | rfl | rfl | rfl | rfl | rfl | rfl | rfl <;> rfl
  · intro x msg
    rfl

/-- C9 amended witness: all nine keys appear for the empty options set even
with every collector failing, and a single requested option yields exactly
its own key. -/
theorem c9_amended_metrics_witness :
    (PsNode.collect fxPsAllFail (PsNode.initNode [])).map Prod.fst =
      [OptionsHostInfo, OptionsCpuInfo, OptionsCpuPercent,
       OptionsVirtualMemory, OptionsSwapMemory, OptionsDiskUsage,
       OptionsDiskIOCounters, OptionsNetIOCounters, OptionsInterfaces] ∧
    (PsNode.collect fxPsAllFail
      (PsNode.initNode [OptionsVirtualMemory])).map Prod.fst =
      [OptionsVirtualMemory] :=
  ⟨(c9_amended_metrics fxPsAllFail).1 (PsNode.initNode []) rfl,
   (c9_amended_metrics fxPsAllFail).2.1 OptionsVirtualMemory (by decide)⟩

/-! ### Claim C10 -/

/-- C10: a non-empty rendered start-time string that does not parse in the
fixed layout — after the ten-byte bare-date normalization — is silently
treated as an unset bound: the parse error is discarded, the operation
still succeeds and the returned history is unfiltered on the start side. -/
theorem c10_unparsable_time_unbounded (fx : LogEffects) (x : GitLogNode)
    (msg : RuleMsg) (wd : String) (commits : List GitCommit)
    (hwd : wd = getWorkDir x.base msg (nodeEvn x.hasVar msg))
    (hopen : fx.plainOpen wd = none)
    (hlog : fx.log wd = .ok commits)
    (_hne : templateExecute x.StartTime (nodeEvn x.hasVar msg) ≠ "")
    (hparse : parseDateTime (normalizeStartStr
      (templateExecute x.StartTime (nodeEvn x.hasVar msg))) = none) :
    (GitLogNode.OnMsg fx x msg).2 = .success ∧
    ((GitLogNode.OnMsg fx x msg).1).data =
      serializeLogs (logLoop 0
        ((parseDateTime (normalizeEndStr
          (templateExecute x.EndTime (nodeEvn x.hasVar msg)))).getD 0)
        x.Limit commits 0) := by
  subst hwd
  constructor <;> simp [GitLogNode.OnMsg, hopen, hlog, hparse]

/-- C10 witness: the ten-byte start string 2024-13-99 is normalized to
2024-13-99 00:00:00, fails to parse (month 13) and the full three-commit
history is returned with success. -/
theorem c10_unparsable_time_unbounded_witness :
    (GitLogNode.OnMsg fxLogThree logNodeBadStart msgW).2 = .success ∧
    ((GitLogNode.OnMsg fxLogThree logNodeBadStart msgW).1).data =
      serializeLogs (logLoop 0 0 0 [mkCommitAt "c3" 30, mkCommitAt "c2" 20,
        mkCommitAt "c1" 10] 0) :=
  c10_unparsable_time_unbounded fxLogThree logNodeBadStart msgW _
    [mkCommitAt "c3" 30, mkCommitAt "c2" 20, mkCommitAt "c1" 10]
    rfl rfl rfl (by decide) (by decide)

end CI
